import Mathlib

/-!
Logger factory: `observability/logging/logger.go`.

A shallow embedding of `NewLogger` and of the cleanup closure it returns.

`NewLogger` is a straight-line constructor over two libraries that are not part
of the repository: `go.uber.org/zap` (level parsing, encoders, cores, the tee,
the logger and its write path) and `os` (opening, syncing and closing files).
The embedding keeps the control flow of `NewLogger` as written and makes the
outside world explicit:

* `World` is the operating-system state the function can touch: the table of
  open descriptors and the trace of effects performed so far;
* `Deps` holds what the libraries decide and the source does not: which strings
  the level parser accepts, whether `os.OpenFile` fails on a path, whether a
  sync fails.  Theorems quantify over every `Deps`.

The write path of a zap logger (`Logger.Log` and what it calls) is modelled from
the specification and marked as such.
-/

namespace Logging

/-! ## Library data: levels, encoders, destinations -/

/-- Severity levels of `zapcore.Level`, in increasing order. -/
inductive Level
  | Debug | Info | Warn | Error | DPanic | Panic | Fatal
  deriving DecidableEq, Repr

/-- The `int8` value of a level (`DebugLevel = -1`, `InfoLevel = 0`, ...). -/
def Level.val : Level → Int
  | .Debug => -1
  | .Info => 0
  | .Warn => 1
  | .Error => 2
  | .DPanic => 3
  | .Panic => 4
  | .Fatal => 5

/-- Lower-case name of a level, as produced by `zapcore.LowercaseLevelEncoder`. -/
def Level.text : Level → String
  | .Debug => "debug"
  | .Info => "info"
  | .Warn => "warn"
  | .Error => "error"
  | .DPanic => "dpanic"
  | .Panic => "panic"
  | .Fatal => "fatal"

/-- The level enabler `func (l Level) Enabled(lvl Level) bool`, `lvl >= l`. -/
def Level.Enabled (l lvl : Level) : Bool := decide (l.val ≤ lvl.val)

/-- The constant `zapcore.ErrorLevel`. -/
def ErrorLevel : Level := Level.Error

/-- Choices for `EncoderConfig.EncodeLevel`. -/
inductive LevelEncoder
  | LowercaseLevelEncoder | CapitalLevelEncoder
  deriving DecidableEq, Repr

/-- Choices for `EncoderConfig.EncodeTime`. -/
inductive TimeEncoder
  | ISO8601TimeEncoder | EpochTimeEncoder
  deriving DecidableEq, Repr

/-- Choices for `EncoderConfig.EncodeDuration`. -/
inductive DurationEncoder
  | SecondsDurationEncoder | StringDurationEncoder
  deriving DecidableEq, Repr

/-- Choices for `EncoderConfig.EncodeCaller`. -/
inductive CallerEncoder
  | ShortCallerEncoder | FullCallerEncoder
  deriving DecidableEq, Repr

/-- The fields of `zapcore.EncoderConfig` that `NewLogger` sets. -/
structure EncoderConfig where
  TimeKey : String
  LevelKey : String
  NameKey : String
  CallerKey : String
  FunctionKey : String
  MessageKey : String
  StacktraceKey : String
  LineEnding : String
  EncodeLevel : LevelEncoder
  EncodeTime : TimeEncoder
  EncodeDuration : DurationEncoder
  EncodeCaller : CallerEncoder
  deriving DecidableEq, Repr

/-- The constant `zapcore.OmitKey`. -/
def OmitKey : String := ""

/-- The constant `zapcore.DefaultLineEnding`. -/
def DefaultLineEnding : String := "\n"

/-- An encoder: the structured JSON encoder or the human-oriented console one. -/
inductive Encoder
  | json (cfg : EncoderConfig)
  | console (cfg : EncoderConfig)
  deriving DecidableEq, Repr

/-- Constructor `zapcore.NewJSONEncoder`. -/
def NewJSONEncoder (cfg : EncoderConfig) : Encoder := Encoder.json cfg

/-- Constructor `zapcore.NewConsoleEncoder`. -/
def NewConsoleEncoder (cfg : EncoderConfig) : Encoder := Encoder.console cfg

/-- Where a core writes: a file handle opened by `os.OpenFile` (descriptor and
path), `os.Stdout` or `os.Stderr`. -/
inductive Dest
  | file (fd : Nat) (path : String)
  | stdout
  | stderr
  deriving DecidableEq, Repr

/-- A sink, `zapcore.NewCore(enc, ws, enab)`: encoder, destination, level filter. -/
structure Core where
  enc : Encoder
  out : Dest
  level : Level
  deriving DecidableEq, Repr

/-- Constructor `zapcore.NewCore`. -/
def NewCore (enc : Encoder) (ws : Dest) (enab : Level) : Core :=
  { enc := enc, out := ws, level := enab }

/-- The tee `zapcore.NewTee(cores...)`: the cores it fans out to, in order. -/
def NewTee (cores : List Core) : List Core := cores

/-! ## The outside world -/

/-- Which of the two encodings produced a line. -/
inductive Format
  | json | console
  deriving DecidableEq, Repr

/-- One encoded record: its format, its key/value fields and its line ending. -/
structure Line where
  format : Format
  fields : List (String × String)
  ending : String
  deriving DecidableEq, Repr

/-- Effects on the operating system, in the order they happen. -/
inductive Event
  | opened (fd : Nat) (path : String)
  | wrote (out : Dest) (line : Line)
  | synced (out : Dest)
  | closed (fd : Nat)
  deriving DecidableEq, Repr

/-- Operating-system state: the next free descriptor, the descriptors that are
open (in opening order) and the trace of effects so far. -/
structure World where
  nextFd : Nat
  openFds : List Nat
  trace : List Event
  deriving DecidableEq, Repr

/-- What the libraries decide: the outcome of `zapcore.ParseLevel` on a string,
the error (if any) of `os.OpenFile(path, O_APPEND|O_CREATE|O_WRONLY, 0644)` in a
given world, and the error (if any) of syncing a destination. -/
structure Deps where
  ParseLevel : String → Except String Level
  openError : World → String → Option String
  syncError : World → Dest → Option String

/-- The call `os.OpenFile(path, O_APPEND|O_CREATE|O_WRONLY, 0644)`: on failure the
world is untouched; on success a fresh descriptor is allocated and left open. -/
def OpenFile (D : Deps) (path : String) (w : World) : Except String Nat × World :=
  match D.openError w path with
  | some cause => (Except.error cause, w)
  | none =>
    (Except.ok w.nextFd,
      { nextFd := w.nextFd + 1
        openFds := w.openFds ++ [w.nextFd]
        trace := w.trace ++ [Event.opened w.nextFd path] })

/-- The call `logFile.Close()`: the descriptor leaves the open table. -/
def Close (fd : Nat) (w : World) : World :=
  { w with
    openFds := w.openFds.filter (fun d => d ≠ fd)
    trace := w.trace ++ [Event.closed fd] }

/-- Whether a destination can be written in a world: the standard streams
always, a file handle while its descriptor is open. -/
def World.writable (w : World) : Dest → Bool
  | Dest.file fd _ => decide (fd ∈ w.openFds)
  | Dest.stdout => true
  | Dest.stderr => true

/-- Write one line to a destination; a write to a closed handle writes nothing. -/
def World.write (w : World) (out : Dest) (line : Line) : World :=
  if w.writable out then { w with trace := w.trace ++ [Event.wrote out line] } else w

/-! ## The logger -/

/-- The logger `*zap.Logger`: its core (the tee), name and the two settings
`NewLogger` touches. `addStack = none` is the default of `zap.New` (no level
records a stack trace). -/
structure Logger where
  core : List Core
  name : String
  addCaller : Bool
  addStack : Option Level
  deriving DecidableEq, Repr

/-- The two `zap.Option`s used by `NewLogger`. -/
inductive LoggerOption
  | AddCaller
  | AddStacktrace (lvl : Level)
  deriving DecidableEq, Repr

/-- Apply one option to a logger. -/
def LoggerOption.apply (lg : Logger) : LoggerOption → Logger
  | LoggerOption.AddCaller => { lg with addCaller := true }
  | LoggerOption.AddStacktrace lvl => { lg with addStack := some lvl }

/-- Constructor `zap.New(core, options...)`. -/
def New (core : List Core) (options : List LoggerOption) : Logger :=
  options.foldl LoggerOption.apply
    { core := core, name := "", addCaller := false, addStack := none }

/-- Modelled from the spec: flushing one sink, done by zap code that is not part
of the repository. The destination is synced and a failure is collected. -/
def Core.Sync (D : Deps) (acc : List String × World) (c : Core) : List String × World :=
  let w1 : World := { acc.2 with trace := acc.2.trace ++ [Event.synced c.out] }
  match D.syncError acc.2 c.out with
  | some e => (acc.1 ++ [e], w1)
  | none => (acc.1, w1)

/-- Modelled from the spec: the call `logger.Sync()`, zap code that is not part
of the repository, flushes the buffered state of every sink, in order. The
result is the list of errors met (empty for a nil error) and the new world. -/
def Logger.Sync (D : Deps) (lg : Logger) (w : World) : List String × World :=
  lg.core.foldl (Core.Sync D) ([], w)

/-! ## The source: `Config` and `NewLogger` -/

/-- The configuration value `Config`. -/
structure Config where
  LogLevel : String
  LogToFile : Bool
  LogFilePath : String
  LogToConsole : Bool
  DevMode : Bool
  deriving DecidableEq, Repr

/-- The local `encoderConfig` of `NewLogger`. -/
def encoderConfig : EncoderConfig :=
  { TimeKey := "ts"
    LevelKey := "level"
    NameKey := "logger"
    CallerKey := "caller"
    FunctionKey := OmitKey
    MessageKey := "msg"
    StacktraceKey := "stacktrace"
    LineEnding := DefaultLineEnding
    EncodeLevel := LevelEncoder.LowercaseLevelEncoder
    EncodeTime := TimeEncoder.ISO8601TimeEncoder
    EncodeDuration := DurationEncoder.SecondsDurationEncoder
    EncodeCaller := CallerEncoder.ShortCallerEncoder }

/-- The triple `(*zap.Logger, func(), error)` returned by `NewLogger`; `none`
stands for `nil`. The cleanup closure acts on the world. -/
structure Result where
  logger : Option Logger
  cleanup : Option (World → World)
  err : Option String

/-- The block `if config.LogToFile` of `NewLogger`: on an open failure the
wrapped error; otherwise the close functions and cores after the block. -/
def fileBlock (D : Deps) (config : Config) (level : Level) (w : World) :
    Except String (List (World → World) × List Core) × World :=
  if config.LogToFile then
    let fileEncoder := NewJSONEncoder encoderConfig
    match OpenFile D config.LogFilePath w with
    | (Except.error err, w1) => (Except.error ("can't open log file: " ++ err), w1)
    | (Except.ok logFile, w1) =>
      (Except.ok ([] ++ [fun v => Close logFile v],
        [] ++ [NewCore fileEncoder (Dest.file logFile config.LogFilePath) level]), w1)
  else
    (Except.ok ([], []), w)

/-- The block `if config.LogToConsole` of `NewLogger`. -/
def consoleBlock (config : Config) (level : Level) (cores : List Core) : List Core :=
  if config.LogToConsole then
    let consoleEncoder :=
      if config.DevMode then NewConsoleEncoder encoderConfig else NewJSONEncoder encoderConfig
    cores ++ [NewCore consoleEncoder Dest.stdout level]
  else
    cores

/-- The block `if len(cores) == 0` of `NewLogger`: the standard-error fallback. -/
def fallbackBlock (level : Level) (cores : List Core) : List Core :=
  if cores.length = 0 then
    let consoleEncoder := NewJSONEncoder encoderConfig
    cores ++ [NewCore consoleEncoder Dest.stderr level]
  else
    cores

/-- The closure `cleanup` of `NewLogger`: sync the logger, drop the error, then
run the close functions in order. -/
def cleanupFn (D : Deps) (logger : Logger) (closeFns : List (World → World)) (w : World) : World :=
  closeFns.foldl (fun v fn => fn v) (logger.Sync D w).2

/-- The function `NewLogger`, run in world `w`: the returned triple and the
world it leaves. -/
def NewLogger (D : Deps) (config : Config) (w : World) : Result × World :=
  match D.ParseLevel config.LogLevel with
  | Except.error err =>
    ({ logger := none, cleanup := none, err := some ("invalid log level: " ++ err) }, w)
  | Except.ok level =>
    match fileBlock D config level w with
    | (Except.error err, w1) => ({ logger := none, cleanup := none, err := some err }, w1)
    | (Except.ok (closeFns, cores), w1) =>
      let cores := fallbackBlock level (consoleBlock config level cores)
      let core := NewTee cores
      let logger := New core [LoggerOption.AddCaller, LoggerOption.AddStacktrace ErrorLevel]
      ({ logger := some logger, cleanup := some (cleanupFn D logger closeFns), err := none }, w1)

/-! ## Modelled from the specification: known level names and the write path -/

/-- Modelled from the spec: the known severity names. `zapcore.ParseLevel` is
library code, not part of the repository; the specification names the ordered set
debug < info < warn < error as severities the level string may map to. -/
def knownSeverity (text : String) : Option Level :=
  if text = "debug" then some Level.Debug
  else if text = "info" then some Level.Info
  else if text = "warn" then some Level.Warn
  else if text = "error" then some Level.Error
  else none

/-- The known severity set named by the specification. -/
def knownSeverities : List String := ["debug", "info", "warn", "error"]

/-- A level parser recognises the known severity names. -/
def RecognisesKnown (D : Deps) : Prop :=
  ∀ text level, knownSeverity text = some level → D.ParseLevel text = Except.ok level

/-- What one logging call brings that the logger does not choose: the clock
reading, the call site (short form, file:line) and the stack at the call. -/
structure Call where
  time : String
  caller : String
  stack : String
  deriving DecidableEq, Repr

/-- A log record before encoding (`zapcore.Entry`). -/
structure Entry where
  level : Level
  time : String
  loggerName : String
  message : String
  caller : Option String
  stack : Option String
  deriving DecidableEq, Repr

/-- Modelled from the spec: the metadata enrichment of the write path of a zap
logger, which is not part of the repository. Every record is tagged with timestamp,
severity, logger name, call-site location (when the logger adds callers) and
message; records at or above the stack-trace threshold of the logger
additionally capture the stack at the point of the call. -/
def Logger.entry (lg : Logger) (lvl : Level) (msg : String) (call : Call) : Entry :=
  { level := lvl
    time := call.time
    loggerName := lg.name
    message := msg
    caller := if lg.addCaller then some call.caller else none
    stack :=
      match lg.addStack with
      | some threshold => if threshold.Enabled lvl then some call.stack else none
      | none => none }

/-- The severity name written by a level encoder. -/
def LevelEncoder.encode : LevelEncoder → Level → String
  | LevelEncoder.LowercaseLevelEncoder, l => l.text
  | LevelEncoder.CapitalLevelEncoder, l => l.text.toUpper

/-- Modelled from the spec: the fields of an encoded record, which the zap
encoders (not part of the repository) produce. Fixed keys for timestamp, level, logger name,
caller and message, and the stack-trace key when the record captured a stack. -/
def encodeFields (cfg : EncoderConfig) (ent : Entry) : List (String × String) :=
  [(cfg.TimeKey, ent.time), (cfg.LevelKey, cfg.EncodeLevel.encode ent.level),
    (cfg.NameKey, ent.loggerName)]
    ++ (match ent.caller with
        | some c => [(cfg.CallerKey, c)]
        | none => [])
    ++ [(cfg.MessageKey, ent.message)]
    ++ (match ent.stack with
        | some s => [(cfg.StacktraceKey, s)]
        | none => [])

/-- Modelled from the spec: encoding one record. The structured encoder yields
one JSON object per line; the human-oriented encoder yields one text line with
the same logical fields. The encoders are zap code, not part of the repository. -/
def Encoder.EncodeEntry : Encoder → Entry → Line
  | Encoder.json cfg, ent =>
    { format := Format.json, fields := encodeFields cfg ent, ending := cfg.LineEnding }
  | Encoder.console cfg, ent =>
    { format := Format.console, fields := encodeFields cfg ent, ending := cfg.LineEnding }

/-- Modelled from the spec: one sink handling one record. The sink writes the
record, encoded with its own encoder, to its own destination when its level
filter accepts the severity of the record. The core is zap code, not part of the repository. -/
def Core.Write (c : Core) (ent : Entry) (w : World) : World :=
  if c.level.Enabled ent.level then w.write c.out (c.enc.EncodeEntry ent) else w

/-- Modelled from the spec: emitting a record through the logger handle. The
record is offered to every sink of the tee, in order (fan-out). The write path
of the logger is zap code, not part of the repository. -/
def Logger.Log (lg : Logger) (lvl : Level) (msg : String) (call : Call) (w : World) : World :=
  lg.core.foldl (fun v c => c.Write (lg.entry lvl msg call) v) w

/-! ## Reading a result and a trace -/

/-- The descriptor of an `opened` event. -/
def Event.openedFd : Event → Option Nat
  | Event.opened fd _ => some fd
  | _ => none

/-- Whether a line has a field with the given key. -/
def Line.hasKey (line : Line) (key : String) : Bool :=
  line.fields.any (fun kv => kv.1 == key)

/-- The events a record adds to the trace: one write per sink whose level
filter accepts the record and whose destination is writable. -/
def written (cores : List Core) (ent : Entry) (w : World) : List Event :=
  (cores.filter (fun c => c.level.Enabled ent.level && w.writable c.out)).map
    (fun c => Event.wrote c.out (c.enc.EncodeEntry ent))

/-! ## A concrete environment for evaluation -/

/-- A level parser that accepts exactly the known severity names. -/
def sampleParse (text : String) : Except String Level :=
  match knownSeverity text with
  | some level => Except.ok level
  | none => Except.error ("unrecognized level: " ++ text)

/-- An environment in which the empty path cannot be opened and syncing
standard output fails. -/
def sampleDeps : Deps :=
  { ParseLevel := sampleParse
    openError := fun _ path => if path = "" then some "open : no such file or directory" else none
    syncError := fun _ out => if out = Dest.stdout then some "sync /dev/stdout: invalid argument" else none }

/-- A world with the three standard descriptors taken and nothing else open. -/
def sampleWorld : World := { nextFd := 3, openFds := [], trace := [] }

/-- A logging call site. -/
def sampleCall : Call :=
  { time := "2024-01-01T00:00:00.000Z", caller := "main/main.go:12", stack := "main.main" }

/-! ## Names for the pieces of a result -/

/-- The options `NewLogger` passes to `zap.New`. -/
def loggerOptions : List LoggerOption :=
  [LoggerOption.AddCaller, LoggerOption.AddStacktrace ErrorLevel]

/-- The cores `NewLogger` ends with, given the cores left by the file block. -/
def finalCores (config : Config) (level : Level) (fromFile : List Core) : List Core :=
  fallbackBlock level (consoleBlock config level fromFile)

/-- The core of the file sink for descriptor `fd`. -/
def fileCore (config : Config) (level : Level) (fd : Nat) : Core :=
  NewCore (NewJSONEncoder encoderConfig) (Dest.file fd config.LogFilePath) level

/-- The world after a successful `os.OpenFile` of `path` in `w`. -/
def afterOpen (w : World) (path : String) : World :=
  { nextFd := w.nextFd + 1
    openFds := w.openFds ++ [w.nextFd]
    trace := w.trace ++ [Event.opened w.nextFd path] }

/-- The core of the standard-output sink. -/
def consoleCore (config : Config) (level : Level) : Core :=
  NewCore (if config.DevMode then NewConsoleEncoder encoderConfig else NewJSONEncoder encoderConfig)
    Dest.stdout level

/-- The core of the standard-error fallback sink. -/
def stderrCore (level : Level) : Core :=
  NewCore (NewJSONEncoder encoderConfig) Dest.stderr level

/-- The sinks of the logger in a result; none when there is no logger. -/
def Result.cores (r : Result) : List Core :=
  match r.logger with
  | some lg => lg.core
  | none => []

/-! ## Lemmas: the four paths through `NewLogger` -/

theorem New_core (cores : List Core) : (New cores loggerOptions).core = cores := rfl

theorem New_addStack (cores : List Core) :
    (New cores loggerOptions).addStack = some ErrorLevel := rfl

theorem New_addCaller (cores : List Core) : (New cores loggerOptions).addCaller = true := rfl

theorem NewLogger_of_parse_error {D : Deps} {config : Config} {e : String} (w : World)
    (h : D.ParseLevel config.LogLevel = Except.error e) :
    NewLogger D config w =
      ({ logger := none, cleanup := none, err := some ("invalid log level: " ++ e) }, w) := by
  simp only [NewLogger, h]

theorem NewLogger_of_open_error {D : Deps} {config : Config} {level : Level} {cause : String}
    (w : World) (hp : D.ParseLevel config.LogLevel = Except.ok level)
    (hf : config.LogToFile = true) (ho : D.openError w config.LogFilePath = some cause) :
    NewLogger D config w =
      ({ logger := none, cleanup := none, err := some ("can't open log file: " ++ cause) }, w) := by
  simp only [NewLogger, hp, fileBlock, hf, OpenFile, ho, if_true]

theorem NewLogger_of_no_file {D : Deps} {config : Config} {level : Level}
    (w : World) (hp : D.ParseLevel config.LogLevel = Except.ok level)
    (hf : config.LogToFile = false) :
    NewLogger D config w =
      ({ logger := some (New (finalCores config level []) loggerOptions)
         cleanup := some (cleanupFn D (New (finalCores config level []) loggerOptions) [])
         err := none }, w) := by
  simp only [NewLogger, hp, fileBlock, hf]
  rfl

theorem NewLogger_of_open_ok {D : Deps} {config : Config} {level : Level}
    (w : World) (hp : D.ParseLevel config.LogLevel = Except.ok level)
    (hf : config.LogToFile = true) (ho : D.openError w config.LogFilePath = none) :
    NewLogger D config w =
      ({ logger := some (New (finalCores config level [fileCore config level w.nextFd]) loggerOptions)
         cleanup := some (cleanupFn D
            (New (finalCores config level [fileCore config level w.nextFd]) loggerOptions)
            [fun v => Close w.nextFd v])
         err := none }, afterOpen w config.LogFilePath) := by
  simp only [NewLogger, hp, fileBlock, hf, OpenFile, ho, if_true]
  rfl

theorem fallbackBlock_ne_nil (level : Level) (cores : List Core) :
    fallbackBlock level cores ≠ [] := by
  unfold fallbackBlock
  split
  · simp
  · rename_i h
    intro hnil
    exact h (by simp [hnil])

theorem known_of_mem {text : String} (h : text ∈ knownSeverities) :
    ∃ level, knownSeverity text = some level := by
  simp only [knownSeverities, List.mem_cons, List.mem_singleton, List.not_mem_nil,
    or_false] at h
  rcases h with h | h | h | h <;> rw [h]
  · exact ⟨Level.Debug, rfl⟩
  · exact ⟨Level.Info, rfl⟩
  · exact ⟨Level.Warn, rfl⟩
  · exact ⟨Level.Error, rfl⟩

theorem sampleDeps_recognises : RecognisesKnown sampleDeps := by
  intro text level h
  simp [sampleDeps, sampleParse, h]

theorem NewLogger_cases (D : Deps) (config : Config) (w : World) :
    (∃ e, D.ParseLevel config.LogLevel = Except.error e ∧
      NewLogger D config w =
        ({ logger := none, cleanup := none, err := some ("invalid log level: " ++ e) }, w)) ∨
    (∃ level cause, D.ParseLevel config.LogLevel = Except.ok level ∧
      config.LogToFile = true ∧ D.openError w config.LogFilePath = some cause ∧
      NewLogger D config w =
        ({ logger := none, cleanup := none,
           err := some ("can't open log file: " ++ cause) }, w)) ∨
    (∃ level, D.ParseLevel config.LogLevel = Except.ok level ∧ config.LogToFile = false ∧
      NewLogger D config w =
        ({ logger := some (New (finalCores config level []) loggerOptions)
           cleanup := some (cleanupFn D (New (finalCores config level []) loggerOptions) [])
           err := none }, w)) ∨
    (∃ level, D.ParseLevel config.LogLevel = Except.ok level ∧ config.LogToFile = true ∧
      D.openError w config.LogFilePath = none ∧
      NewLogger D config w =
        ({ logger :=
             some (New (finalCores config level [fileCore config level w.nextFd]) loggerOptions)
           cleanup := some (cleanupFn D
             (New (finalCores config level [fileCore config level w.nextFd]) loggerOptions)
             [fun v => Close w.nextFd v])
           err := none }, afterOpen w config.LogFilePath)) := by
  cases hp : D.ParseLevel config.LogLevel with
  | error e => exact Or.inl ⟨e, rfl, NewLogger_of_parse_error w hp⟩
  | ok level =>
    cases hf : config.LogToFile with
    | false => exact Or.inr (Or.inr (Or.inl ⟨level, rfl, rfl, NewLogger_of_no_file w hp hf⟩))
    | true =>
      cases ho : D.openError w config.LogFilePath with
      | some cause =>
        exact Or.inr (Or.inl ⟨level, cause, rfl, rfl, rfl, NewLogger_of_open_error w hp hf ho⟩)
      | none =>
        exact Or.inr (Or.inr (Or.inr ⟨level, rfl, rfl, rfl, NewLogger_of_open_ok w hp hf ho⟩))

/-! ## Lemmas: the write path -/

theorem writable_trace (v : World) (t : List Event) (d : Dest) :
    World.writable { v with trace := t } d = v.writable d := by
  cases d <;> rfl

theorem written_nil (ent : Entry) (v : World) : written [] ent v = [] := rfl

theorem written_cons (c : Core) (cs : List Core) (ent : Entry) (v : World) :
    written (c :: cs) ent v =
      if (c.level.Enabled ent.level && v.writable c.out) = true then
        Event.wrote c.out (c.enc.EncodeEntry ent) :: written cs ent v
      else written cs ent v := by
  unfold written
  rw [List.filter_cons]
  split <;> rfl

theorem written_trace (cores : List Core) (ent : Entry) (v : World) (t : List Event) :
    written cores ent { v with trace := t } = written cores ent v := by
  induction cores with
  | nil => rfl
  | cons c cs ih => rw [written_cons, written_cons, ih, writable_trace]

theorem foldl_Write (ent : Entry) : ∀ (cores : List Core) (v : World),
    cores.foldl (fun u c => c.Write ent u) v
      = { v with trace := v.trace ++ written cores ent v }
  | [], v => by simp [written_nil]
  | c :: cs, v => by
    rw [List.foldl_cons, foldl_Write ent cs, written_cons]
    by_cases h1 : c.level.Enabled ent.level = true
    · by_cases h2 : v.writable c.out = true
      · simp [Core.Write, World.write, h1, h2, written_trace]
      · simp [Core.Write, World.write, h1, h2]
    · simp [Core.Write, h1]

theorem Log_eq (lg : Logger) (lvl : Level) (msg : String) (call : Call) (v : World) :
    lg.Log lvl msg call v
      = { v with trace := v.trace ++ written lg.core (lg.entry lvl msg call) v } :=
  foldl_Write _ _ _

theorem not_enabled_of_lt {level lvl : Level} (h : lvl.val < level.val) :
    level.Enabled lvl = false := by
  simp [Level.Enabled, h]

theorem finalCores_nil (config : Config) (level : Level) :
    finalCores config level []
      = if config.LogToConsole then [consoleCore config level] else [stderrCore level] := by
  cases hc : config.LogToConsole <;>
    simp [finalCores, fallbackBlock, consoleBlock, hc, consoleCore, stderrCore]

theorem finalCores_file (config : Config) (level : Level) (f : Core) :
    finalCores config level [f]
      = if config.LogToConsole then [f, consoleCore config level] else [f] := by
  cases hc : config.LogToConsole <;>
    simp [finalCores, fallbackBlock, consoleBlock, hc, consoleCore]

theorem logger_shape {D : Deps} {config : Config} {w : World} {lg : Logger}
    (h : (NewLogger D config w).1.logger = some lg) :
    ∃ level fromFile, D.ParseLevel config.LogLevel = Except.ok level ∧
      (fromFile = [] ∨ fromFile = [fileCore config level w.nextFd]) ∧
      lg = New (finalCores config level fromFile) loggerOptions := by
  rcases NewLogger_cases D config w with
    ⟨e, _, heq⟩ | ⟨level, cause, _, _, _, heq⟩ | ⟨level, hp, _, heq⟩ | ⟨level, hp, _, _, heq⟩
  · rw [heq] at h
    cases h
  · rw [heq] at h
    cases h
  · rw [heq] at h
    exact ⟨level, [], hp, Or.inl rfl, (Option.some.inj h).symm⟩
  · rw [heq] at h
    exact ⟨level, _, hp, Or.inr rfl, (Option.some.inj h).symm⟩

theorem finalCores_mem {config : Config} {level : Level} {fd : Nat} {fromFile : List Core}
    (hfrom : fromFile = [] ∨ fromFile = [fileCore config level fd]) {c : Core}
    (hc : c ∈ finalCores config level fromFile) :
    c = fileCore config level fd ∨ c = consoleCore config level ∨ c = stderrCore level := by
  rcases hfrom with h | h
  · rw [h, finalCores_nil] at hc
    split at hc
    · exact Or.inr (Or.inl (List.mem_singleton.mp hc))
    · exact Or.inr (Or.inr (List.mem_singleton.mp hc))
  · rw [h, finalCores_file] at hc
    split at hc
    · simp only [List.mem_cons, List.mem_singleton, List.not_mem_nil, or_false] at hc
      rcases hc with hc | hc
      · exact Or.inl hc
      · exact Or.inr (Or.inl hc)
    · exact Or.inl (List.mem_singleton.mp hc)

theorem core_level_of_mem {config : Config} {level : Level} {fd : Nat} {c : Core}
    (h : c = fileCore config level fd ∨ c = consoleCore config level ∨ c = stderrCore level) :
    c.level = level := by
  rcases h with h | h | h <;> rw [h] <;> rfl

theorem core_fields_of_mem {config : Config} {level : Level} {fd : Nat} {c : Core}
    (h : c = fileCore config level fd ∨ c = consoleCore config level ∨ c = stderrCore level)
    (ent : Entry) : (c.enc.EncodeEntry ent).fields = encodeFields encoderConfig ent := by
  rcases h with h | h | h
  · rw [h]
    rfl
  · rw [h]
    cases hd : config.DevMode <;> simp [consoleCore, NewCore, hd, NewConsoleEncoder,
      NewJSONEncoder, Encoder.EncodeEntry]
  · rw [h]
    rfl

theorem written_eq_nil {cores : List Core} {ent : Entry} (v : World)
    (h : ∀ c ∈ cores, c.level.Enabled ent.level = false) : written cores ent v = [] := by
  induction cores with
  | nil => rfl
  | cons c cs ih =>
    rw [written_cons, h c (List.mem_cons_self _ _)]
    simpa using ih (fun d hd => h d (List.mem_cons_of_mem _ hd))

theorem mem_written {cores : List Core} {ent : Entry} {v : World} {out : Dest} {line : Line}
    (h : Event.wrote out line ∈ written cores ent v) :
    ∃ c ∈ cores, out = c.out ∧ line = c.enc.EncodeEntry ent := by
  simp only [written, List.mem_map, List.mem_filter] at h
  obtain ⟨c, ⟨hc, _⟩, heq⟩ := h
  injection heq with h1 h2
  exact ⟨c, hc, h1.symm, h2.symm⟩

theorem stack_field_present (cores : List Core) (lvl : Level) (msg : String) (call : Call)
    (h : ErrorLevel.val ≤ lvl.val) :
    ("stacktrace", call.stack)
      ∈ encodeFields encoderConfig ((New cores loggerOptions).entry lvl msg call) := by
  simp [encodeFields, Logger.entry, New_addStack, Level.Enabled, h, encoderConfig]

theorem stack_key_absent (cores : List Core) (lvl : Level) (msg : String) (call : Call)
    (h : lvl.val < ErrorLevel.val) (line : Line)
    (hf : line.fields
      = encodeFields encoderConfig ((New cores loggerOptions).entry lvl msg call)) :
    line.hasKey "stacktrace" = false := by
  have h2 : ¬ ErrorLevel.val ≤ lvl.val := not_le.mpr h
  simp [Line.hasKey, hf, encodeFields, Logger.entry, New_addStack, New_addCaller,
    Level.Enabled, h2, encoderConfig]

theorem Core_Sync_snd (D : Deps) (acc : List String × World) (c : Core) :
    (Core.Sync D acc c).2 = { acc.2 with trace := acc.2.trace ++ [Event.synced c.out] } := by
  unfold Core.Sync
  split <;> rfl

theorem foldl_Sync (D : Deps) : ∀ (cores : List Core) (acc : List String × World),
    (cores.foldl (Core.Sync D) acc).2
      = { acc.2 with trace := acc.2.trace ++ cores.map (fun c => Event.synced c.out) }
  | [], acc => by simp
  | c :: cs, acc => by
    rw [List.foldl_cons, foldl_Sync D cs, Core_Sync_snd]
    simp

theorem Sync_world (D : Deps) (lg : Logger) (v : World) :
    (lg.Sync D v).2 = { v with trace := v.trace ++ lg.core.map (fun c => Event.synced c.out) } :=
  foldl_Sync D lg.core ([], v)

/-! ## Construction: failure and success -/

/-- C1: when the level parser rejects `LogLevel`, `NewLogger` returns a nil
logger, a nil cleanup and the error "invalid log level: ..." wrapping the
parser error, and the world is left exactly as it was: no file is opened or
created, whatever `LogToFile` and `LogFilePath` are. -/
theorem NewLogger_invalid_level (D : Deps) (config : Config) (w : World) (e : String)
    (h : D.ParseLevel config.LogLevel = Except.error e) :
    (NewLogger D config w).1.logger = none ∧
    (NewLogger D config w).1.cleanup = none ∧
    (NewLogger D config w).1.err = some ("invalid log level: " ++ e) ∧
    (NewLogger D config w).2 = w := by
  rw [NewLogger_of_parse_error w h]
  exact ⟨rfl, rfl, rfl, rfl⟩

/-- Evaluation on a config with an unknown level, `LogToFile` true and an
openable path: the three results and the untouched world. -/
theorem NewLogger_invalid_level_witness :
    sampleDeps.ParseLevel "verbose" = Except.error "unrecognized level: verbose" ∧
    sampleDeps.openError sampleWorld "/var/log/app.log" = none ∧
    (NewLogger sampleDeps ⟨"verbose", true, "/var/log/app.log", true, false⟩ sampleWorld).1.logger
      = none ∧
    (NewLogger sampleDeps ⟨"verbose", true, "/var/log/app.log", true, false⟩ sampleWorld).1.cleanup
      = none ∧
    (NewLogger sampleDeps ⟨"verbose", true, "/var/log/app.log", true, false⟩ sampleWorld).1.err
      = some "invalid log level: unrecognized level: verbose" ∧
    (NewLogger sampleDeps ⟨"verbose", true, "/var/log/app.log", true, false⟩ sampleWorld).2
      = sampleWorld :=
  ⟨rfl, by decide,
    NewLogger_invalid_level sampleDeps ⟨"verbose", true, "/var/log/app.log", true, false⟩
      sampleWorld "unrecognized level: verbose" rfl⟩

/-- C2: with a level parser that recognises the known severity names, a config
whose `LogLevel` is one of debug, info, warn, error and which is otherwise
valid (`LogToFile` false, or the open of `LogFilePath` succeeds) makes
`NewLogger` succeed: a logger, a cleanup function and a nil error. -/
theorem NewLogger_known_level_succeeds (D : Deps) (config : Config) (w : World)
    (hD : RecognisesKnown D) (hname : config.LogLevel ∈ knownSeverities)
    (hvalid : config.LogToFile = false ∨ D.openError w config.LogFilePath = none) :
    (NewLogger D config w).1.logger.isSome = true ∧
    (NewLogger D config w).1.cleanup.isSome = true ∧
    (NewLogger D config w).1.err = none := by
  obtain ⟨level, hk⟩ := known_of_mem hname
  have hp := hD _ _ hk
  cases hf : config.LogToFile with
  | false =>
    rw [NewLogger_of_no_file w hp hf]
    exact ⟨rfl, rfl, rfl⟩
  | true =>
    rcases hvalid with h | h
    · rw [hf] at h
      cases h
    · rw [NewLogger_of_open_ok w hp hf h]
      exact ⟨rfl, rfl, rfl⟩

/-- Evaluation on a config that logs at "warn" to an openable file. -/
theorem NewLogger_known_level_succeeds_witness :
    RecognisesKnown sampleDeps ∧
    "warn" ∈ knownSeverities ∧
    sampleDeps.openError sampleWorld "/var/log/app.log" = none ∧
    (NewLogger sampleDeps ⟨"warn", true, "/var/log/app.log", false, false⟩ sampleWorld).1.logger.isSome
      = true ∧
    (NewLogger sampleDeps ⟨"warn", true, "/var/log/app.log", false, false⟩ sampleWorld).1.cleanup.isSome
      = true ∧
    (NewLogger sampleDeps ⟨"warn", true, "/var/log/app.log", false, false⟩ sampleWorld).1.err
      = none :=
  ⟨sampleDeps_recognises, by decide, by decide,
    NewLogger_known_level_succeeds sampleDeps ⟨"warn", true, "/var/log/app.log", false, false⟩
      sampleWorld sampleDeps_recognises (by decide) (Or.inr (by decide))⟩

/-- C3: with a valid `LogLevel` and `LogToFile` true, when the open of
`LogFilePath` fails `NewLogger` returns a nil logger, a nil cleanup and the
error "can't open log file: ..." carrying the text of the cause, and the world
is left as it was: no descriptor is open that was not open before. -/
theorem NewLogger_open_failure (D : Deps) (config : Config) (w : World) (level : Level)
    (cause : String) (hp : D.ParseLevel config.LogLevel = Except.ok level)
    (hf : config.LogToFile = true) (ho : D.openError w config.LogFilePath = some cause) :
    (NewLogger D config w).1.logger = none ∧
    (NewLogger D config w).1.cleanup = none ∧
    (NewLogger D config w).1.err = some ("can't open log file: " ++ cause) ∧
    (NewLogger D config w).2 = w ∧
    (NewLogger D config w).2.openFds = w.openFds := by
  rw [NewLogger_of_open_error w hp hf ho]
  exact ⟨rfl, rfl, rfl, rfl, rfl⟩

/-- Evaluation on a config whose file path cannot be opened. -/
theorem NewLogger_open_failure_witness :
    sampleDeps.ParseLevel "info" = Except.ok Level.Info ∧
    sampleDeps.openError sampleWorld "" = some "open : no such file or directory" ∧
    (NewLogger sampleDeps ⟨"info", true, "", true, false⟩ sampleWorld).1.logger = none ∧
    (NewLogger sampleDeps ⟨"info", true, "", true, false⟩ sampleWorld).1.cleanup = none ∧
    (NewLogger sampleDeps ⟨"info", true, "", true, false⟩ sampleWorld).1.err
      = some "can't open log file: open : no such file or directory" ∧
    (NewLogger sampleDeps ⟨"info", true, "", true, false⟩ sampleWorld).2 = sampleWorld ∧
    (NewLogger sampleDeps ⟨"info", true, "", true, false⟩ sampleWorld).2.openFds = [] :=
  ⟨rfl, by decide,
    NewLogger_open_failure sampleDeps ⟨"info", true, "", true, false⟩ sampleWorld Level.Info
      "open : no such file or directory" rfl rfl (by decide)⟩

/-! ## Sinks -/

/-- C4: whenever `NewLogger` succeeds (nil error), it returns a logger whose
list of sinks is non-empty, for every value of `LogToFile`, `LogToConsole` and
`DevMode`. -/
theorem NewLogger_sinks_nonempty (D : Deps) (config : Config) (w : World)
    (h : (NewLogger D config w).1.err = none) :
    ∃ lg, (NewLogger D config w).1.logger = some lg ∧ lg.core ≠ [] := by
  rcases NewLogger_cases D config w with
    ⟨e, _, heq⟩ | ⟨level, cause, _, _, _, heq⟩ | ⟨level, _, _, heq⟩ | ⟨level, _, _, _, heq⟩
  · rw [heq] at h
    cases h
  · rw [heq] at h
    cases h
  · rw [heq]
    exact ⟨_, rfl, fallbackBlock_ne_nil _ _⟩
  · rw [heq]
    exact ⟨_, rfl, fallbackBlock_ne_nil _ _⟩

/-- Evaluation on a config that asks for no output at all. -/
theorem NewLogger_sinks_nonempty_witness :
    (NewLogger sampleDeps ⟨"debug", false, "", false, true⟩ sampleWorld).1.err = none ∧
    ∃ lg, (NewLogger sampleDeps ⟨"debug", false, "", false, true⟩ sampleWorld).1.logger = some lg ∧
      lg.core ≠ [] :=
  ⟨by decide,
    NewLogger_sinks_nonempty sampleDeps ⟨"debug", false, "", false, true⟩ sampleWorld (by decide)⟩

/-- C5: with a valid `LogLevel` and both `LogToFile` and `LogToConsole` false,
the logger has exactly one sink: destination standard error, JSON encoder,
the configured level, whatever `DevMode` is. A record at or above the
configured level emitted through the logger adds exactly one write to the
trace: its JSON line on standard error. -/
theorem NewLogger_fallback_sink (D : Deps) (config : Config) (w : World) (level : Level)
    (hp : D.ParseLevel config.LogLevel = Except.ok level)
    (hf : config.LogToFile = false) (hc : config.LogToConsole = false) :
    ∃ lg, (NewLogger D config w).1.logger = some lg ∧
      lg.core = [NewCore (NewJSONEncoder encoderConfig) Dest.stderr level] ∧
      ∀ (lvl : Level) (msg : String) (call : Call) (v : World), level.Enabled lvl = true →
        lg.Log lvl msg call v =
          { v with trace := v.trace ++
              [Event.wrote Dest.stderr
                ((NewJSONEncoder encoderConfig).EncodeEntry (lg.entry lvl msg call))] } ∧
        ((NewJSONEncoder encoderConfig).EncodeEntry (lg.entry lvl msg call)).format
          = Format.json := by
  rw [NewLogger_of_no_file w hp hf]
  have hcores : (New (finalCores config level []) loggerOptions).core
      = [NewCore (NewJSONEncoder encoderConfig) Dest.stderr level] := by
    rw [New_core, finalCores_nil, hc]
    rfl
  refine ⟨_, rfl, hcores, ?_⟩
  intro lvl msg call v hen
  refine ⟨?_, rfl⟩
  rw [Log_eq, hcores, written_cons, written_nil]
  have hen2 : (NewCore (NewJSONEncoder encoderConfig) Dest.stderr level).level.Enabled
      ((New (finalCores config level []) loggerOptions).entry lvl msg call).level = true := hen
  rw [hen2]
  rfl

/-- Evaluation with `DevMode` true: one sink on standard error, JSON. -/
theorem NewLogger_fallback_sink_witness :
    sampleDeps.ParseLevel "warn" = Except.ok Level.Warn ∧
    ∃ lg, (NewLogger sampleDeps ⟨"warn", false, "", false, true⟩ sampleWorld).1.logger = some lg ∧
      lg.core = [NewCore (NewJSONEncoder encoderConfig) Dest.stderr Level.Warn] ∧
      ∀ (lvl : Level) (msg : String) (call : Call) (v : World), Level.Warn.Enabled lvl = true →
        lg.Log lvl msg call v =
          { v with trace := v.trace ++
              [Event.wrote Dest.stderr
                ((NewJSONEncoder encoderConfig).EncodeEntry (lg.entry lvl msg call))] } ∧
        ((NewJSONEncoder encoderConfig).EncodeEntry (lg.entry lvl msg call)).format
          = Format.json :=
  ⟨rfl,
    NewLogger_fallback_sink sampleDeps ⟨"warn", false, "", false, true⟩ sampleWorld Level.Warn
      rfl rfl rfl⟩

/-- C6: with a valid `LogLevel`, `LogToFile` and `LogToConsole` both true and
an openable `LogFilePath`, the logger has exactly two sinks, the file (JSON)
then standard output, none on standard error, both filtering with the
configured level. The file handle is open when `NewLogger` returns, and while
it is open every record at or above the configured level adds exactly two
writes to the trace: one to the file and one to standard output. -/
theorem NewLogger_file_and_console (D : Deps) (config : Config) (w : World) (level : Level)
    (hp : D.ParseLevel config.LogLevel = Except.ok level)
    (hf : config.LogToFile = true) (hc : config.LogToConsole = true)
    (ho : D.openError w config.LogFilePath = none) :
    ∃ lg, (NewLogger D config w).1.logger = some lg ∧
      lg.core =
        [NewCore (NewJSONEncoder encoderConfig) (Dest.file w.nextFd config.LogFilePath) level,
         NewCore (if config.DevMode then NewConsoleEncoder encoderConfig
            else NewJSONEncoder encoderConfig) Dest.stdout level] ∧
      (∀ c ∈ lg.core, c.out ≠ Dest.stderr) ∧
      (∀ c ∈ lg.core, c.level = level) ∧
      w.nextFd ∈ (NewLogger D config w).2.openFds ∧
      ∀ (lvl : Level) (msg : String) (call : Call) (v : World), level.Enabled lvl = true →
        w.nextFd ∈ v.openFds →
        lg.Log lvl msg call v =
          { v with trace := v.trace ++
              [Event.wrote (Dest.file w.nextFd config.LogFilePath)
                ((NewJSONEncoder encoderConfig).EncodeEntry (lg.entry lvl msg call)),
               Event.wrote Dest.stdout
                ((if config.DevMode then NewConsoleEncoder encoderConfig
                  else NewJSONEncoder encoderConfig).EncodeEntry (lg.entry lvl msg call))] } := by
  rw [NewLogger_of_open_ok w hp hf ho]
  have hcores : (New (finalCores config level [fileCore config level w.nextFd]) loggerOptions).core
      = [NewCore (NewJSONEncoder encoderConfig) (Dest.file w.nextFd config.LogFilePath) level,
         NewCore (if config.DevMode then NewConsoleEncoder encoderConfig
            else NewJSONEncoder encoderConfig) Dest.stdout level] := by
    rw [New_core, finalCores_file, hc]
    rfl
  refine ⟨_, rfl, hcores, ?_, ?_, ?_, ?_⟩
  · intro c hmem
    rw [hcores] at hmem
    simp only [List.mem_cons, List.mem_singleton, List.not_mem_nil, or_false] at hmem
    rcases hmem with h | h <;> rw [h] <;> simp [NewCore]
  · intro c hmem
    rw [hcores] at hmem
    simp only [List.mem_cons, List.mem_singleton, List.not_mem_nil, or_false] at hmem
    rcases hmem with h | h <;> rw [h] <;> rfl
  · simp [afterOpen]
  · intro lvl msg call v hen hopen
    rw [Log_eq, hcores, written_cons, written_cons, written_nil]
    have hen1 : (NewCore (NewJSONEncoder encoderConfig)
        (Dest.file w.nextFd config.LogFilePath) level).level.Enabled
        ((New (finalCores config level [fileCore config level w.nextFd]) loggerOptions).entry
          lvl msg call).level = true := hen
    have hen2 : (NewCore (if config.DevMode then NewConsoleEncoder encoderConfig
        else NewJSONEncoder encoderConfig) Dest.stdout level).level.Enabled
        ((New (finalCores config level [fileCore config level w.nextFd]) loggerOptions).entry
          lvl msg call).level = true := hen
    have hw : v.writable (NewCore (NewJSONEncoder encoderConfig)
        (Dest.file w.nextFd config.LogFilePath) level).out = true := by
      simp [NewCore, World.writable, hopen]
    rw [hen1, hen2, hw]
    rfl

/-- Evaluation on a config logging at "info" to a file and the console. -/
theorem NewLogger_file_and_console_witness :
    sampleDeps.ParseLevel "info" = Except.ok Level.Info ∧
    sampleDeps.openError sampleWorld "/var/log/app.log" = none ∧
    ∃ lg, (NewLogger sampleDeps ⟨"info", true, "/var/log/app.log", true, false⟩
        sampleWorld).1.logger = some lg ∧
      lg.core =
        [NewCore (NewJSONEncoder encoderConfig) (Dest.file 3 "/var/log/app.log") Level.Info,
         NewCore (NewJSONEncoder encoderConfig) Dest.stdout Level.Info] ∧
      (∀ c ∈ lg.core, c.out ≠ Dest.stderr) ∧
      (∀ c ∈ lg.core, c.level = Level.Info) ∧
      3 ∈ (NewLogger sampleDeps ⟨"info", true, "/var/log/app.log", true, false⟩
        sampleWorld).2.openFds ∧
      ∀ (lvl : Level) (msg : String) (call : Call) (v : World), Level.Info.Enabled lvl = true →
        3 ∈ v.openFds →
        lg.Log lvl msg call v =
          { v with trace := v.trace ++
              [Event.wrote (Dest.file 3 "/var/log/app.log")
                ((NewJSONEncoder encoderConfig).EncodeEntry (lg.entry lvl msg call)),
               Event.wrote Dest.stdout
                ((NewJSONEncoder encoderConfig).EncodeEntry (lg.entry lvl msg call))] } :=
  ⟨rfl, by decide,
    NewLogger_file_and_console sampleDeps ⟨"info", true, "/var/log/app.log", true, false⟩
      sampleWorld Level.Info rfl rfl rfl (by decide)⟩

/-! ## Level filtering -/

/-- C7: a record whose severity is strictly below the level parsed from
`LogLevel` leaves the world untouched: it is written to no sink of the logger
`NewLogger` returned. With a parser that maps "info" to the info level, the
config with `LogLevel` "info", `LogToFile` false, `LogToConsole` true and
`DevMode` false gives a logger on which a warn record "disk low" adds exactly
one write, a JSON line on standard output with level "warn" and msg "disk low",
and on which a debug record adds nothing. -/
theorem Log_below_level_silent (D : Deps) (w : World) :
    (∀ (config : Config) (level : Level) (lg : Logger),
      D.ParseLevel config.LogLevel = Except.ok level →
      (NewLogger D config w).1.logger = some lg →
      ∀ (lvl : Level) (msg : String) (call : Call) (v : World),
        lvl.val < level.val → lg.Log lvl msg call v = v) ∧
    (D.ParseLevel "info" = Except.ok Level.Info →
      ∀ path : String, ∃ lg,
        (NewLogger D ⟨"info", false, path, true, false⟩ w).1.logger = some lg ∧
        ∀ (call : Call) (v : World),
          (∃ line, lg.Log Level.Warn "disk low" call v
              = { v with trace := v.trace ++ [Event.wrote Dest.stdout line] } ∧
            line.format = Format.json ∧
            ("level", "warn") ∈ line.fields ∧
            ("msg", "disk low") ∈ line.fields) ∧
          ∀ msg : String, lg.Log Level.Debug msg call v = v) := by
  constructor
  · intro config level lg hp hlg lvl msg call v hlt
    obtain ⟨level2, fromFile, hp2, hfrom, hshape⟩ := logger_shape hlg
    have hl : level2 = level := by
      rw [hp] at hp2
      exact (Except.ok.inj hp2).symm
    subst hl
    have hnil : written (finalCores config level2 fromFile)
        ((New (finalCores config level2 fromFile) loggerOptions).entry lvl msg call) v = [] := by
      apply written_eq_nil
      intro c hc
      rw [core_level_of_mem (finalCores_mem hfrom hc)]
      exact not_enabled_of_lt hlt
    rw [Log_eq, hshape, New_core, hnil, List.append_nil]
  · intro hinfo path
    have hok := @NewLogger_of_no_file D ⟨"info", false, path, true, false⟩ Level.Info w
      hinfo rfl
    rw [hok]
    refine ⟨_, rfl, ?_⟩
    intro call v
    constructor
    · refine ⟨(NewJSONEncoder encoderConfig).EncodeEntry
        ((New (finalCores ⟨"info", false, path, true, false⟩ Level.Info []) loggerOptions).entry
          Level.Warn "disk low" call), ?_, rfl, ?_, ?_⟩
      · rw [Log_eq, New_core, finalCores_nil]
        rfl
      · simp [NewJSONEncoder, Encoder.EncodeEntry, encodeFields, encoderConfig, Logger.entry,
          LevelEncoder.encode, Level.text]
      · simp [NewJSONEncoder, Encoder.EncodeEntry, encodeFields, encoderConfig, Logger.entry]
    · intro msg
      have hnil : written (finalCores ⟨"info", false, path, true, false⟩ Level.Info [])
          ((New (finalCores ⟨"info", false, path, true, false⟩ Level.Info []) loggerOptions).entry
            Level.Debug msg call) v = [] := by
        rw [finalCores_nil]
        rfl
      rw [Log_eq, New_core, hnil, List.append_nil]

/-- Evaluation in the sample environment: the example config, a warn
record and a debug record. -/
theorem Log_below_level_silent_witness :
    sampleDeps.ParseLevel "info" = Except.ok Level.Info ∧
    ∃ lg, (NewLogger sampleDeps ⟨"info", false, "", true, false⟩ sampleWorld).1.logger = some lg ∧
      ∀ (call : Call) (v : World),
        (∃ line, lg.Log Level.Warn "disk low" call v
            = { v with trace := v.trace ++ [Event.wrote Dest.stdout line] } ∧
          line.format = Format.json ∧
          ("level", "warn") ∈ line.fields ∧
          ("msg", "disk low") ∈ line.fields) ∧
        ∀ msg : String, lg.Log Level.Debug msg call v = v :=
  ⟨rfl, (Log_below_level_silent sampleDeps sampleWorld).2 rfl ""⟩

/-! ## Stack traces -/

/-- C9: the logger `NewLogger` returns records stack traces from the error
severity up, independently of the configured `LogLevel`. Every line a record
adds to the trace carries the stacktrace field, holding the stack at the call,
when the record is at error severity or above, and has no stacktrace field
when the record is below error severity. -/
theorem stacktrace_from_error_level (D : Deps) (config : Config) (w : World) (lg : Logger)
    (h : (NewLogger D config w).1.logger = some lg) :
    lg.addStack = some ErrorLevel ∧
    ∀ (lvl : Level) (msg : String) (call : Call) (v : World),
      (lg.Log lvl msg call v).trace = v.trace ++ written lg.core (lg.entry lvl msg call) v ∧
      ∀ (out : Dest) (line : Line),
        Event.wrote out line ∈ written lg.core (lg.entry lvl msg call) v →
        (ErrorLevel.val ≤ lvl.val → ("stacktrace", call.stack) ∈ line.fields) ∧
        (lvl.val < ErrorLevel.val → line.hasKey "stacktrace" = false) := by
  obtain ⟨level, fromFile, _, hfrom, hshape⟩ := logger_shape h
  subst hshape
  refine ⟨rfl, ?_⟩
  intro lvl msg call v
  refine ⟨by rw [Log_eq], ?_⟩
  intro out line hmem
  obtain ⟨c, hc, _, hline⟩ := mem_written hmem
  rw [New_core] at hc
  have hfields := core_fields_of_mem (finalCores_mem hfrom hc)
    ((New (finalCores config level fromFile) loggerOptions).entry lvl msg call)
  constructor
  · intro hge
    rw [hline, hfields]
    exact stack_field_present _ lvl msg call hge
  · intro hlt
    exact stack_key_absent _ lvl msg call hlt line (by rw [hline, hfields])

/-- Evaluation on a logger configured at "debug" with a console sink. -/
theorem stacktrace_from_error_level_witness :
    (NewLogger sampleDeps ⟨"debug", false, "", true, false⟩ sampleWorld).1.logger
      = some (New [consoleCore ⟨"debug", false, "", true, false⟩ Level.Debug] loggerOptions) ∧
    (New [consoleCore ⟨"debug", false, "", true, false⟩ Level.Debug] loggerOptions).addStack
      = some ErrorLevel ∧
    ∀ (lvl : Level) (msg : String) (call : Call) (v : World),
      ((New [consoleCore ⟨"debug", false, "", true, false⟩ Level.Debug] loggerOptions).Log
          lvl msg call v).trace
        = v.trace ++ written
            (New [consoleCore ⟨"debug", false, "", true, false⟩ Level.Debug] loggerOptions).core
            ((New [consoleCore ⟨"debug", false, "", true, false⟩ Level.Debug] loggerOptions).entry
              lvl msg call) v ∧
      ∀ (out : Dest) (line : Line),
        Event.wrote out line ∈ written
            (New [consoleCore ⟨"debug", false, "", true, false⟩ Level.Debug] loggerOptions).core
            ((New [consoleCore ⟨"debug", false, "", true, false⟩ Level.Debug] loggerOptions).entry
              lvl msg call) v →
        (ErrorLevel.val ≤ lvl.val → ("stacktrace", call.stack) ∈ line.fields) ∧
        (lvl.val < ErrorLevel.val → line.hasKey "stacktrace" = false) :=
  ⟨rfl,
    stacktrace_from_error_level sampleDeps ⟨"debug", false, "", true, false⟩ sampleWorld
      (New [consoleCore ⟨"debug", false, "", true, false⟩ Level.Debug] loggerOptions) rfl⟩

/-! ## Cleanup -/

/-- C8: after a successful `NewLogger`, the cleanup function first syncs the
logger and drops the outcome (whether or not any sync fails), then closes the
file handles `NewLogger` opened, in opening order: its trace is the sync of
every sink followed by one close per opened handle, and no opened handle is
open afterwards. With `LogToFile` true the one opened handle is closed; with
`LogToFile` false nothing was opened and cleanup closes nothing. -/
theorem cleanup_syncs_then_closes (D : Deps) (config : Config) (w : World)
    (h : (NewLogger D config w).1.err = none) :
    ∃ lg cl opened,
      (NewLogger D config w).1.logger = some lg ∧
      (NewLogger D config w).1.cleanup = some cl ∧
      (NewLogger D config w).2.trace = w.trace ++ opened ∧
      (∀ v : World, cl v
        = (opened.filterMap Event.openedFd).foldl (fun u fd => Close fd u) (lg.Sync D v).2) ∧
      (∀ v : World, (cl v).trace
        = v.trace ++ lg.core.map (fun c => Event.synced c.out)
            ++ (opened.filterMap Event.openedFd).map Event.closed) ∧
      (∀ v : World, ∀ fd ∈ opened.filterMap Event.openedFd, fd ∉ (cl v).openFds) ∧
      (config.LogToFile = true →
        opened.filterMap Event.openedFd = [w.nextFd] ∧
        w.nextFd ∈ (NewLogger D config w).2.openFds) ∧
      (config.LogToFile = false →
        opened.filterMap Event.openedFd = [] ∧ ∀ v : World, (cl v).openFds = v.openFds) := by
  rcases NewLogger_cases D config w with
    ⟨e, _, heq⟩ | ⟨level, cause, _, _, _, heq⟩ | ⟨level, _, hf, heq⟩ | ⟨level, _, hf, _, heq⟩
  · rw [heq] at h
    cases h
  · rw [heq] at h
    cases h
  · rw [heq]
    refine ⟨_, _, [], rfl, rfl, (List.append_nil _).symm, fun v => rfl, ?_, ?_, ?_, ?_⟩
    · intro v
      simp [cleanupFn, Sync_world]
    · intro v fd hfd
      simp at hfd
    · intro ht
      rw [hf] at ht
      cases ht
    · intro _
      refine ⟨rfl, fun v => ?_⟩
      simp [cleanupFn, Sync_world]
  · rw [heq]
    refine ⟨_, _, [Event.opened w.nextFd config.LogFilePath], rfl, rfl, rfl, fun v => rfl,
      ?_, ?_, ?_, ?_⟩
    · intro v
      simp [cleanupFn, Sync_world, Close, Event.openedFd]
    · intro v fd hfd
      simp only [List.filterMap_cons, Event.openedFd, List.filterMap_nil, List.mem_singleton]
        at hfd
      subst hfd
      simp [cleanupFn, Close]
    · intro _
      exact ⟨rfl, by simp [afterOpen]⟩
    · intro hfalse
      rw [hf] at hfalse
      cases hfalse

/-- Evaluation on a config with a file sink and a console sink, in an
environment where syncing standard output fails. -/
theorem cleanup_syncs_then_closes_witness :
    (NewLogger sampleDeps ⟨"info", true, "/var/log/app.log", true, false⟩ sampleWorld).1.err
      = none ∧
    sampleDeps.syncError sampleWorld Dest.stdout = some "sync /dev/stdout: invalid argument" ∧
    ∃ lg cl opened,
      (NewLogger sampleDeps ⟨"info", true, "/var/log/app.log", true, false⟩ sampleWorld).1.logger
        = some lg ∧
      (NewLogger sampleDeps ⟨"info", true, "/var/log/app.log", true, false⟩ sampleWorld).1.cleanup
        = some cl ∧
      (NewLogger sampleDeps ⟨"info", true, "/var/log/app.log", true, false⟩ sampleWorld).2.trace
        = sampleWorld.trace ++ opened ∧
      (∀ v : World, cl v
        = (opened.filterMap Event.openedFd).foldl (fun u fd => Close fd u)
            (lg.Sync sampleDeps v).2) ∧
      (∀ v : World, (cl v).trace
        = v.trace ++ lg.core.map (fun c => Event.synced c.out)
            ++ (opened.filterMap Event.openedFd).map Event.closed) ∧
      (∀ v : World, ∀ fd ∈ opened.filterMap Event.openedFd, fd ∉ (cl v).openFds) ∧
      ((true : Bool) = true →
        opened.filterMap Event.openedFd = [sampleWorld.nextFd] ∧
        sampleWorld.nextFd ∈
          (NewLogger sampleDeps ⟨"info", true, "/var/log/app.log", true, false⟩
            sampleWorld).2.openFds) ∧
      ((true : Bool) = false →
        opened.filterMap Event.openedFd = [] ∧ ∀ v : World, (cl v).openFds = v.openFds) :=
  ⟨by decide, by decide,
    cleanup_syncs_then_closes sampleDeps ⟨"info", true, "/var/log/app.log", true, false⟩
      sampleWorld (by decide)⟩

/-! ## Developer mode -/

/-- C10: two configs that differ only in `DevMode` make `NewLogger` fail or
succeed identically (same error, same world), with the same number of sinks,
the same destinations and the same level filters. In both, every sink that is
not standard output (the file sink, the standard-error fallback) has the JSON
encoder; the standard-output sink has the console encoder when `DevMode` is
true and the JSON encoder when it is false. -/
theorem DevMode_console_encoding_only (D : Deps) (config : Config) (w : World) :
    (NewLogger D { config with DevMode := true } w).1.err
      = (NewLogger D { config with DevMode := false } w).1.err ∧
    (NewLogger D { config with DevMode := true } w).1.logger.isSome
      = (NewLogger D { config with DevMode := false } w).1.logger.isSome ∧
    (NewLogger D { config with DevMode := true } w).1.cleanup.isSome
      = (NewLogger D { config with DevMode := false } w).1.cleanup.isSome ∧
    (NewLogger D { config with DevMode := true } w).2
      = (NewLogger D { config with DevMode := false } w).2 ∧
    (NewLogger D { config with DevMode := true } w).1.cores.length
      = (NewLogger D { config with DevMode := false } w).1.cores.length ∧
    (NewLogger D { config with DevMode := true } w).1.cores.map Core.out
      = (NewLogger D { config with DevMode := false } w).1.cores.map Core.out ∧
    (NewLogger D { config with DevMode := true } w).1.cores.map Core.level
      = (NewLogger D { config with DevMode := false } w).1.cores.map Core.level ∧
    (∀ c ∈ (NewLogger D { config with DevMode := true } w).1.cores,
      (c.out ≠ Dest.stdout → c.enc = NewJSONEncoder encoderConfig) ∧
      (c.out = Dest.stdout → c.enc = NewConsoleEncoder encoderConfig)) ∧
    (∀ c ∈ (NewLogger D { config with DevMode := false } w).1.cores,
      c.enc = NewJSONEncoder encoderConfig) := by
  cases hp : D.ParseLevel config.LogLevel with
  | error e =>
    rw [@NewLogger_of_parse_error D { config with DevMode := true } _ w hp,
      @NewLogger_of_parse_error D { config with DevMode := false } _ w hp]
    simp [Result.cores]
  | ok level =>
    rcases Bool.eq_false_or_eq_true config.LogToFile with hf | hf
    · cases ho : D.openError w config.LogFilePath with
      | some cause =>
        rw [@NewLogger_of_open_error D { config with DevMode := true } _ _ w hp hf ho,
          @NewLogger_of_open_error D { config with DevMode := false } _ _ w hp hf ho]
        simp [Result.cores]
      | none =>
        rw [@NewLogger_of_open_ok D { config with DevMode := true } _ w hp hf ho,
          @NewLogger_of_open_ok D { config with DevMode := false } _ w hp hf ho]
        simp only [Result.cores, New_core, finalCores_file]
        rcases Bool.eq_false_or_eq_true config.LogToConsole with hc | hc <;>
          simp [hc, consoleCore, fileCore, NewCore, NewJSONEncoder, NewConsoleEncoder]
    · rw [@NewLogger_of_no_file D { config with DevMode := true } _ w hp hf,
        @NewLogger_of_no_file D { config with DevMode := false } _ w hp hf]
      simp only [Result.cores, New_core, finalCores_nil]
      rcases Bool.eq_false_or_eq_true config.LogToConsole with hc | hc <;>
        simp [hc, consoleCore, stderrCore, NewCore, NewJSONEncoder, NewConsoleEncoder]

/-- Evaluation on a config with a file sink and a console sink: the
sinks of the two loggers, side by side. -/
theorem DevMode_console_encoding_only_witness :
    (NewLogger sampleDeps ⟨"info", true, "/var/log/app.log", true, true⟩ sampleWorld).1.cores
      = [NewCore (NewJSONEncoder encoderConfig) (Dest.file 3 "/var/log/app.log") Level.Info,
         NewCore (NewConsoleEncoder encoderConfig) Dest.stdout Level.Info] ∧
    (NewLogger sampleDeps ⟨"info", true, "/var/log/app.log", true, false⟩ sampleWorld).1.cores
      = [NewCore (NewJSONEncoder encoderConfig) (Dest.file 3 "/var/log/app.log") Level.Info,
         NewCore (NewJSONEncoder encoderConfig) Dest.stdout Level.Info] ∧
    (NewLogger sampleDeps ⟨"info", true, "/var/log/app.log", true, true⟩ sampleWorld).1.cores.map
        Core.out
      = (NewLogger sampleDeps ⟨"info", true, "/var/log/app.log", true, false⟩
          sampleWorld).1.cores.map Core.out :=
  ⟨by decide, by decide,
    (DevMode_console_encoding_only sampleDeps ⟨"info", true, "/var/log/app.log", true, false⟩
      sampleWorld).2.2.2.2.2.1⟩

end Logging
